import Mathlib

/-!
Shallow embedding of `src/comment_extractor.py` (class `CommentExtractor`):
the Reddit JSON tree parser `extract_reddit_comments` (lines 102-145) and the
generic HTML extractor `extract_generic_comments` (lines 147-185), together
with theorems checking the specification's claims about them.

Modelling conventions:
  - A decoded JSON payload (the result of `response.json()`) is a value of the
    inductive type `Json` below; Python numbers are modelled as `Int`.
  - Python exceptions (KeyError, TypeError, AttributeError, ...) are modelled
    by `Except String`; the `try/except` at the boundary of each extractor
    turns an error into the empty record list, exactly as in the source.
  - The unbounded Python recursion of the inner `parse_comment` is modelled
    with an explicit `fuel` argument (one unit per nesting level); theorems
    assume the fuel dominates the nesting height of the input, which mirrors
    "stack depth is bounded only by actual thread depth".
  - The network fetch and the BeautifulSoup HTML engine are external
    collaborators: the Reddit extractor receives the decoded payload, and the
    generic extractor receives a document modelled by its selector results
    (`doc : String → List String` maps a CSS selector to the stripped text of
    each matching element, in document order), plus the wall-clock time `now`
    read by `datetime.now()`.
-/

set_option autoImplicit false

namespace CommentExtractor

/-- A decoded JSON value, as returned by `response.json()`. -/
inductive Json where
  | null : Json
  | bool (b : Bool) : Json
  | num (n : Int) : Json
  | str (s : String) : Json
  | arr (elems : List Json) : Json
  | obj (fields : List (String × Json)) : Json

/-- First value bound to key `k` in a Python dict's field list. -/
def lookupField : List (String × Json) → String → Option Json
  | [], _ => none
  | p :: rest, k => if p.1 == k then some p.2 else lookupField rest k

/-- Python truthiness, as used by `if comment_data['replies']:`. -/
def Json.truthy : Json → Bool
  | .null => false
  | .bool b => b
  | .num n => n != 0
  | .str s => s != ""
  | .arr xs => !xs.isEmpty
  | .obj fs => !fs.isEmpty

/-- Python `v[k]` for a string key: returns the value from a dict, raises
KeyError when the key is missing and TypeError when `v` is not a dict. -/
def pySubscript : Json → String → Except String Json
  | .obj fs, k =>
      match lookupField fs k with
      | some v => Except.ok v
      | none => Except.error ("KeyError: " ++ k)
  | _, k => Except.error ("TypeError: value not subscriptable with key " ++ k)

/-- Python `v.get(k, default)`: defined on dicts, AttributeError otherwise. -/
def pyDictGet : Json → String → Json → Except String Json
  | .obj fs, k, dflt => Except.ok ((lookupField fs k).getD dflt)
  | _, _, _ => Except.error "AttributeError: value has no attribute get"

/-- Python `k in v` for the dict case; in the source this test is only
reached once `comment_data` is known to be a dict (its `.get` calls above
would otherwise have raised). -/
def pyContains : Json → String → Bool
  | .obj fs, k => (lookupField fs k).isSome
  | _, _ => false

/-- Python `for x in v`: lists yield their elements, dicts their keys and
strings their characters; other values raise TypeError. -/
def pyIter : Json → Except String (List Json)
  | .arr xs => Except.ok xs
  | .obj fs => Except.ok (fs.map (fun p => Json.str p.1))
  | .str s => Except.ok (s.data.map (fun c => Json.str (String.mk [c])))
  | _ => Except.error "TypeError: value is not iterable"

/-- Python `v == lit` for a string literal `lit`: true exactly when `v` is
that string (comparison with a value of another type is `False`, no error). -/
def pyEqStr : Json → String → Bool
  | .str t, s => t == s
  | _, _ => false

/-- Python single-quote character, written by code point to keep the source
free of quoting noise. -/
def pyQuoteChar : Char := Char.ofNat 39

mutual
/-- Python `repr()` of a JSON-like value (what `str()` falls back to for
containers inside an f-string). -/
def pyRepr : Json → String
  | .null => "None"
  | .bool true => "True"
  | .bool false => "False"
  | .num n => toString n
  | .str s => String.mk [pyQuoteChar] ++ s ++ String.mk [pyQuoteChar]
  | .arr xs => "[" ++ pyReprElems xs ++ "]"
  | .obj fs => String.mk [Char.ofNat 123] ++ pyReprFields fs ++ String.mk [Char.ofNat 125]

/-- Comma-separated `repr`s of list elements. -/
def pyReprElems : List Json → String
  | [] => ""
  | [x] => pyRepr x
  | x :: y :: rest => pyRepr x ++ ", " ++ pyReprElems (y :: rest)

/-- Comma-separated `key: value` pairs of a dict's `repr`. -/
def pyReprFields : List (String × Json) → String
  | [] => ""
  | [p] => String.mk [pyQuoteChar] ++ p.1 ++ String.mk [pyQuoteChar] ++ ": " ++ pyRepr p.2
  | p :: q :: rest =>
      String.mk [pyQuoteChar] ++ p.1 ++ String.mk [pyQuoteChar] ++ ": " ++ pyRepr p.2
        ++ ", " ++ pyReprFields (q :: rest)
end

/-- Python `str()` as applied by the f-string
`f"https://reddit.com{comment_data.get('permalink', '')}"`. -/
def pyStr : Json → String
  | .str s => s
  | v => pyRepr v

/-- One record appended by the inner `parse_comment` (source lines 122-130).
Field values keep their dynamic `Json` type, except: `created_utc` stores the
Unix timestamp given to `datetime.fromtimestamp` (which requires a number),
and `permalink` is the string produced by the f-string. -/
structure CommentRecord where
  author : Json
  text : Json
  score : Json
  created_utc : Int
  depth : Nat
  id : Json
  permalink : String

/-- Inner recursive `parse_comment(comment_obj, depth)` (source lines
119-136), returning the records contributed by this node in emission order
(the node's own record first, then its replies depth-first). `fuel` bounds
the recursion depth; the Python original has no such bound. -/
def parse_comment : Nat → Json → Nat → Except String (List CommentRecord)
  | 0, _, _ => Except.error "RecursionError: maximum recursion depth exceeded"
  | fuel + 1, comment_obj, depth => do
      let kind ← pySubscript comment_obj "kind"
      if pyEqStr kind "t1" then do
        let comment_data ← pySubscript comment_obj "data"
        let author ← pyDictGet comment_data "author" (Json.str "[deleted]")
        let body ← pyDictGet comment_data "body" (Json.str "[deleted]")
        let score ← pyDictGet comment_data "score" (Json.num 0)
        let createdRaw ← pyDictGet comment_data "created_utc" (Json.num 0)
        let created ← match createdRaw with
          | Json.num n => Except.ok n
          | _ => Except.error "TypeError: fromtimestamp expects a number"
        let idVal ← pyDictGet comment_data "id" (Json.str "")
        let plVal ← pyDictGet comment_data "permalink" (Json.str "")
        let rec0 : CommentRecord :=
          { author := author, text := body, score := score, created_utc := created,
            depth := depth, id := idVal,
            permalink := "https://reddit.com" ++ pyStr plVal }
        if pyContains comment_data "replies" then do
          let replies ← pySubscript comment_data "replies"
          if replies.truthy then
            match replies with
            | Json.obj fs => do
                let repliesData ← pySubscript (Json.obj fs) "data"
                let children ← pySubscript repliesData "children"
                let items ← pyIter children
                let nested ← items.mapM (fun reply => parse_comment fuel reply (depth + 1))
                Except.ok (rec0 :: nested.flatten)
            | _ => Except.ok [rec0]
          else Except.ok [rec0]
        else Except.ok [rec0]
      else Except.ok []

/-- Body of the `try` block of `extract_reddit_comments` after the fetch
(source lines 113-141): shape check `isinstance(data, list) and len(data) > 1`,
access `data[1]['data']['children']`, then `parse_comment` over the top-level
children with the shared accumulator. An error anywhere aborts the whole
walk, exactly like a Python exception. -/
def redditParse (fuel : Nat) (data : Json) : Except String (List CommentRecord) :=
  match data with
  | Json.arr (_ :: second :: _) => do
      let listing ← pySubscript second "data"
      let children ← pySubscript listing "children"
      let items ← pyIter children
      let parsed ← items.mapM (fun comment => parse_comment fuel comment 0)
      Except.ok parsed.flatten
  | _ => Except.ok []

/-- `extract_reddit_comments` (source lines 102-145) applied to an already
fetched and decoded payload: the `except Exception` handler converts any
failure into the empty list. -/
def extract_reddit_comments (fuel : Nat) (data : Json) : List CommentRecord :=
  match redditParse fuel data with
  | Except.ok comments => comments
  | Except.error _ => []

/-- One record appended by `extract_generic_comments` (source lines 169-177).
`created_utc` stores the wall-clock instant `datetime.now()` passed in as
`now`; `score` is Python `None`. -/
structure GenericRecord where
  author : String
  text : String
  score : Option Int
  created_utc : Int
  depth : Nat
  id : String
  source : String
deriving DecidableEq

/-- The fixed, ordered selector list `comment_selectors` (source lines
157-161). -/
def comment_selectors : List String :=
  [".comment", ".comment-item", ".comment-content",
   "[class*=\"comment\"]", "[id*=\"comment\"]",
   ".reply", ".response", ".discussion-item"]

/-- Python slicing `s[:n]`: the first `n` code points of `s`. -/
def pySlice (s : String) (n : Nat) : String := String.mk (s.data.take n)

/-- Loop body of `extract_generic_comments` (source lines 163-179): try each
selector in order; collect at most 50 matched elements, keep those whose
stripped text is longer than 10 characters, truncate to 500 characters with
an ellipsis, and stop at the first selector whose record list is non-empty.
`doc sel` is the stripped text of the elements matched by `sel`. -/
def extract_generic_go (now : Int) (doc : String → List String) :
    List String → List GenericRecord
  | [] => []
  | selector :: rest =>
      let comment_elements := doc selector
      if comment_elements.isEmpty then extract_generic_go now doc rest
      else
        let comments := (comment_elements.take 50).enum.filterMap (fun p =>
          if p.2.length > 10 then
            some { author := "Unknown",
                   text := if p.2.length > 500 then pySlice p.2 500 ++ "..." else p.2,
                   score := none,
                   created_utc := now,
                   depth := 0,
                   id := "generic_" ++ toString p.1,
                   source := selector }
          else none)
        if comments.isEmpty then extract_generic_go now doc rest else comments

/-- `extract_generic_comments` (source lines 147-185) applied to an already
fetched document, with the clock instant `now` made explicit. -/
def extract_generic_comments (now : Int) (doc : String → List String) :
    List GenericRecord :=
  extract_generic_go now doc comment_selectors

/-! ### Abstract Reddit comment trees

A valid Reddit comment listing (spec section 6: each child is
`{kind, data: {...}}`, nested replies are a listing or an empty string) is
described abstractly by `RNode` and rendered to concrete JSON by
`encodeNode`. Quantifying over abstract forests expresses "for every valid
two-element Reddit payload". -/

/-- A node of a valid Reddit comment tree: an actual comment (`kind "t1"`)
with its metadata and nested replies, or a "load more comments" stub
(`kind "more"`). -/
inductive RNode where
  | t1 (author body : String) (score created : Int) (id : String)
      (permalink : Option String) (replies : List RNode) : RNode
  | more : RNode

mutual
/-- Render one comment-tree node to the JSON shape served by Reddit:
`{kind, data: {...}}`, where a comment's `replies` field is a nested listing
when there are replies and the empty string when there are none. -/
def encodeNode : RNode → Json
  | .more =>
      Json.obj [("kind", Json.str "more"),
        ("data", Json.obj [("count", Json.num 0), ("children", Json.arr [])])]
  | .t1 a b s c i pl rs =>
      Json.obj [("kind", Json.str "t1"),
        ("data", Json.obj
          ([("author", Json.str a), ("body", Json.str b), ("score", Json.num s),
            ("created_utc", Json.num c), ("id", Json.str i)]
           ++ (match pl with
               | some p => [("permalink", Json.str p)]
               | none => [])
           ++ [("replies",
                 if rs.isEmpty then Json.str ""
                 else Json.obj [("kind", Json.str "Listing"),
                   ("data", Json.obj [("children", Json.arr (encodeNodes rs))])])]))]

/-- Render a list of sibling nodes. -/
def encodeNodes : List RNode → List Json
  | [] => []
  | n :: rest => encodeNode n :: encodeNodes rest
end

/-- A full two-element payload `[post_listing, comment_listing]` whose
comment listing holds the forest `ns`; the post listing (element 0) is never
inspected by the code and stays arbitrary. -/
def encodePayload (post : Json) (ns : List RNode) : Json :=
  Json.arr [post,
    Json.obj [("kind", Json.str "Listing"),
      ("data", Json.obj [("children", Json.arr (encodeNodes ns))])]]

mutual
/-- Nesting height of a tree (1 for a leaf), which bounds the recursion
depth `parse_comment` needs on its encoding. -/
def nodeHeight : RNode → Nat
  | .more => 1
  | .t1 _ _ _ _ _ _ rs => 1 + forestHeight rs

/-- Greatest nesting height of the trees of a forest. -/
def forestHeight : List RNode → Nat
  | [] => 0
  | n :: rest => max (nodeHeight n) (forestHeight rest)
end

mutual
/-- Number of `kind == "t1"` nodes reachable depth-first from a node,
"more" stubs skipped (spec section 8, first property). -/
def countNode : RNode → Nat
  | .more => 0
  | .t1 _ _ _ _ _ _ rs => 1 + countForest rs

/-- Number of reachable `kind == "t1"` nodes of a forest. -/
def countForest : List RNode → Nat
  | [] => 0
  | n :: rest => countNode n + countForest rest
end

/-- The record the code emits for a `t1` node with the given fields at
nesting depth `d`. -/
def mkRecord (a b : String) (s c : Int) (i : String) (pl : Option String)
    (d : Nat) : CommentRecord :=
  { author := Json.str a, text := Json.str b, score := Json.num s,
    created_utc := c, depth := d, id := Json.str i,
    permalink := "https://reddit.com" ++ pl.getD "" }

mutual
/-- Spec-side pre-order flattening (spec section 4.2 step 4): emit a
comment's record, then recurse into each reply with depth + 1, replies in
source order; emit nothing for a "more" stub. -/
def flattenNode : RNode → Nat → List CommentRecord
  | .more, _ => []
  | .t1 a b s c i pl rs, d => mkRecord a b s c i pl d :: flattenForest rs (d + 1)

/-- Pre-order flattening of a forest at a common depth. -/
def flattenForest : List RNode → Nat → List CommentRecord
  | [], _ => []
  | n :: rest, d => flattenNode n d ++ flattenForest rest d
end

/-- `OccursAt n k ns`: node `n` occurs somewhere in the forest `ns` with
exactly `k` ancestor comment nodes above it (`k = 0` for the top level, and
each step into a comment's replies adds one ancestor). -/
inductive OccursAt : RNode → Nat → List RNode → Prop where
  | top {n : RNode} {ns : List RNode} : n ∈ ns → OccursAt n 0 ns
  | reply {n : RNode} {k : Nat} {ns : List RNode} {a b : String} {s c : Int}
      {i : String} {pl : Option String} {rs : List RNode} :
      OccursAt (RNode.t1 a b s c i pl rs) k ns → n ∈ rs → OccursAt n (k + 1) ns

/-! ### Simulation: the code on an encoded forest computes the spec-side
pre-order flattening. -/

@[simp]
lemma ok_bind {α β : Type} {e : Type} (a : α) (f : α → Except e β) :
    (Except.ok a : Except e α) >>= f = f a := rfl

@[simp]
lemma error_bind {α β : Type} {e : Type} (err : e) (f : α → Except e β) :
    (Except.error err : Except e α) >>= f = Except.error err := rfl

lemma one_le_nodeHeight (n : RNode) : 1 ≤ nodeHeight n := by
  cases n <;> simp [nodeHeight]

lemma nodeHeight_le_forestHeight {n : RNode} :
    ∀ {ns : List RNode}, n ∈ ns → nodeHeight n ≤ forestHeight ns := by
  intro ns h
  induction ns with
  | nil => cases h
  | cons m rest ih =>
      rw [forestHeight]
      rcases List.mem_cons.mp h with rfl | hm
      · exact le_max_left _ _
      · exact le_trans (ih hm) (le_max_right _ _)

lemma flatten_map_flattenNode (d : Nat) :
    ∀ rs : List RNode,
      (rs.map (fun r => flattenNode r d)).flatten = flattenForest rs d := by
  intro rs
  induction rs with
  | nil => simp [flattenForest]
  | cons r rest ih => simp [flattenForest, ih]

lemma mapM_parse_encode (fuel d : Nat) :
    ∀ rs : List RNode,
      (∀ r ∈ rs, parse_comment fuel (encodeNode r) d = Except.ok (flattenNode r d)) →
      (encodeNodes rs).mapM (fun reply => parse_comment fuel reply d) =
        Except.ok (rs.map (fun r => flattenNode r d)) := by
  intro rs h
  induction rs with
  | nil =>
      rw [encodeNodes]
      rfl
  | cons r rest ih =>
      rw [encodeNodes]
      rw [List.mapM_cons]
      rw [h r (List.mem_cons_self r rest), ih (fun x hx => h x (List.mem_cons_of_mem r hx))]
      rfl

lemma parse_comment_encode :
    ∀ (fuel : Nat) (n : RNode) (d : Nat), nodeHeight n ≤ fuel →
      parse_comment fuel (encodeNode n) d = Except.ok (flattenNode n d) := by
  intro fuel
  induction fuel with
  | zero =>
      intro n d h
      exact absurd (le_trans (one_le_nodeHeight n) h) (by simp)
  | succ fuel ih =>
      intro n d h
      cases n with
      | more =>
          simp [parse_comment, encodeNode, pySubscript, lookupField, pyEqStr,
            flattenNode]
      | t1 a b s c i pl rs =>
          have hfor : forestHeight rs ≤ fuel := by
            have : 1 + forestHeight rs ≤ fuel + 1 := by
              simpa [nodeHeight] using h
            omega
          have hrs : ∀ r ∈ rs, parse_comment fuel (encodeNode r) (d + 1) =
              Except.ok (flattenNode r (d + 1)) :=
            fun r hr => ih r (d + 1) (le_trans (nodeHeight_le_forestHeight hr) hfor)
          cases pl with
          | none =>
              cases rs with
              | nil =>
                  simp [parse_comment, encodeNode, pySubscript, lookupField,
                    pyEqStr, pyDictGet, pyContains, Json.truthy, pyStr,
                    flattenNode, flattenForest, mkRecord]
              | cons r rest =>
                  rw [encodeNode]
                  simp only [parse_comment, pySubscript, lookupField, pyEqStr,
                    pyDictGet, pyContains, Json.truthy, pyStr, List.cons_append,
                    List.nil_append, List.isEmpty_cons, if_true, if_false,
                    Bool.false_eq_true, ite_false, ite_true, ok_bind, pyIter,
                    beq_self_eq_true, String.reduceBEq, Option.getD_some,
                    Option.isSome_some, reduceCtorEq]
                  rw [mapM_parse_encode fuel (d + 1) (r :: rest) hrs]
                  simp [flatten_map_flattenNode, flattenNode, flattenForest, mkRecord]
          | some p =>
              cases rs with
              | nil =>
                  simp [parse_comment, encodeNode, pySubscript, lookupField,
                    pyEqStr, pyDictGet, pyContains, Json.truthy, pyStr,
                    flattenNode, flattenForest, mkRecord]
              | cons r rest =>
                  rw [encodeNode]
                  simp only [parse_comment, pySubscript, lookupField, pyEqStr,
                    pyDictGet, pyContains, Json.truthy, pyStr, List.cons_append,
                    List.nil_append, List.isEmpty_cons, if_true, if_false,
                    Bool.false_eq_true, ite_false, ite_true, ok_bind, pyIter,
                    beq_self_eq_true, String.reduceBEq, Option.getD_some,
                    Option.isSome_some, reduceCtorEq]
                  rw [mapM_parse_encode fuel (d + 1) (r :: rest) hrs]
                  simp [flatten_map_flattenNode, flattenNode, flattenForest, mkRecord]

lemma extract_encode (fuel : Nat) (post : Json) (ns : List RNode)
    (h : forestHeight ns ≤ fuel) :
    extract_reddit_comments fuel (encodePayload post ns) = flattenForest ns 0 := by
  have hns : ∀ r ∈ ns, parse_comment fuel (encodeNode r) 0 = Except.ok (flattenNode r 0) :=
    fun r hr => parse_comment_encode fuel r 0 (le_trans (nodeHeight_le_forestHeight hr) h)
  rw [encodePayload, extract_reddit_comments, redditParse]
  simp only [pySubscript, lookupField, pyIter, String.reduceBEq, beq_self_eq_true,
    Bool.false_eq_true, reduceIte, if_true, if_false, ite_true, ite_false, ok_bind]
  rw [mapM_parse_encode fuel 0 ns hns]
  simp [flatten_map_flattenNode]

mutual
/-- Each comment tree contributes one record per reachable `t1` node. -/
theorem flattenNode_length : ∀ (n : RNode) (d : Nat),
    (flattenNode n d).length = countNode n
  | .more, _ => by rw [flattenNode, countNode]; rfl
  | .t1 a b s c i pl rs, d => by
      rw [flattenNode, countNode]
      simp only [List.length_cons, flattenForest_length rs (d + 1)]
      omega

/-- Forest version of `flattenNode_length`. -/
theorem flattenForest_length : ∀ (ns : List RNode) (d : Nat),
    (flattenForest ns d).length = countForest ns
  | [], _ => by rw [flattenForest, countForest]; rfl
  | n :: rest, d => by
      rw [flattenForest, countForest]
      simp [flattenNode_length n d, flattenForest_length rest d]
end

lemma occursAt_cons {n m : RNode} {k : Nat} {ns : List RNode}
    (h : OccursAt n k ns) : OccursAt n k (m :: ns) := by
  induction h with
  | top hm => exact OccursAt.top (List.mem_cons_of_mem _ hm)
  | reply hp hm ih => exact OccursAt.reply ih hm

lemma occursAt_under {p : RNode} {j : Nat} {a b : String} {s c : Int}
    {i : String} {pl : Option String} {rs ns : List RNode}
    (h : OccursAt p j rs) :
    RNode.t1 a b s c i pl rs ∈ ns → OccursAt p (j + 1) ns := by
  induction h with
  | top hm => exact fun hmem => OccursAt.reply (OccursAt.top hmem) hm
  | reply hp hm ih => exact fun hmem => OccursAt.reply (ih hmem) hm

lemma mem_flattenForest_of_mem {n : RNode} {ns : List RNode} (h : n ∈ ns)
    (d : Nat) : ∀ r ∈ flattenNode n d, r ∈ flattenForest ns d := by
  induction ns with
  | nil => cases h
  | cons m rest ih =>
      intro r hr
      rw [flattenForest]
      rcases List.mem_cons.mp h with rfl | hm
      · exact List.mem_append_left _ hr
      · exact List.mem_append_right _ (ih hm r hr)

lemma mem_flattenForest_of_occursAt {n : RNode} {k : Nat} {ns : List RNode}
    (h : OccursAt n k ns) :
    ∀ d, ∀ r ∈ flattenNode n (d + k), r ∈ flattenForest ns d := by
  induction h with
  | top hm =>
      intro d r hr
      exact mem_flattenForest_of_mem hm d r hr
  | reply hp hm ih =>
      intro d r hr
      apply ih d
      rw [flattenNode]
      refine List.mem_cons_of_mem _ ?_
      rw [← Nat.add_assoc] at hr
      exact mem_flattenForest_of_mem hm _ r hr

lemma mem_flattenForest :
    ∀ (B : Nat) (ns : List RNode), forestHeight ns ≤ B →
      ∀ (d : Nat) (r : CommentRecord), r ∈ flattenForest ns d →
      ∃ a b s c i pl rs k, OccursAt (RNode.t1 a b s c i pl rs) k ns ∧
        r = mkRecord a b s c i pl (d + k) := by
  intro B
  induction B with
  | zero =>
      intro ns hB d r hr
      cases ns with
      | nil => rw [flattenForest] at hr; cases hr
      | cons n rest =>
          exfalso
          have h1 := one_le_nodeHeight n
          have h2 : nodeHeight n ≤ 0 :=
            le_trans (nodeHeight_le_forestHeight (List.mem_cons_self n rest)) hB
          omega
  | succ B ih =>
      intro ns
      induction ns with
      | nil =>
          intro _ d r hr
          rw [flattenForest] at hr
          cases hr
      | cons n rest ihrest =>
          intro hB d r hr
          have hrest : forestHeight rest ≤ B + 1 := by
            rw [forestHeight] at hB
            exact le_trans (le_max_right _ _) hB
          rw [flattenForest] at hr
          rcases List.mem_append.mp hr with h1 | h2
          · cases n with
            | more => rw [flattenNode] at h1; cases h1
            | t1 a b s c i pl rs =>
                rw [flattenNode] at h1
                rcases List.mem_cons.mp h1 with rfl | hmem
                · exact ⟨a, b, s, c, i, pl, rs, 0,
                    OccursAt.top (List.mem_cons_self _ _), by norm_num⟩
                · have hrs : forestHeight rs ≤ B := by
                    have hn := nodeHeight_le_forestHeight
                      (List.mem_cons_self (RNode.t1 a b s c i pl rs) rest)
                    rw [nodeHeight] at hn
                    have := le_trans hn hB
                    omega
                  obtain ⟨a1, b1, s1, c1, i1, pl1, rs1, k1, hocc, hrec⟩ :=
                    ih rs hrs (d + 1) r hmem
                  refine ⟨a1, b1, s1, c1, i1, pl1, rs1, k1 + 1,
                    occursAt_under hocc (List.mem_cons_self _ _), ?_⟩
                  rw [hrec]
                  congr 1
                  omega
          · obtain ⟨a1, b1, s1, c1, i1, pl1, rs1, k1, hocc, hrec⟩ :=
              ihrest hrest d r h2
            exact ⟨a1, b1, s1, c1, i1, pl1, rs1, k1, occursAt_cons hocc, hrec⟩

/-- Converse of `mem_flattenForest`: the record of a comment node occurring
with `k` ancestors is emitted at depth `d + k`. -/
lemma mkRecord_mem_flattenForest {a b : String} {s c : Int} {i : String}
    {pl : Option String} {rs ns : List RNode} {k : Nat}
    (h : OccursAt (RNode.t1 a b s c i pl rs) k ns) (d : Nat) :
    mkRecord a b s c i pl (d + k) ∈ flattenForest ns d := by
  apply mem_flattenForest_of_occursAt h d
  rw [flattenNode]
  exact List.mem_cons_self _ _

/-! ### Generic extractor: selector tiers, filtering and truncation. -/

/-- Records surviving one selector tier (spec section 4.3 steps a-e): at most
50 matched elements, candidates of more than 10 characters kept, text
truncated to 500 characters plus an ellipsis, the selector recorded as the
record's `source`. -/
def surviving (now : Int) (doc : String → List String) (selector : String) :
    List GenericRecord :=
  ((doc selector).take 50).enum.filterMap (fun p =>
    if p.2.length > 10 then
      some { author := "Unknown",
             text := if p.2.length > 500 then pySlice p.2 500 ++ "..." else p.2,
             score := none,
             created_utc := now,
             depth := 0,
             id := "generic_" ++ toString p.1,
             source := selector }
    else none)

lemma extract_generic_go_cons (now : Int) (doc : String → List String)
    (selector : String) (rest : List String) :
    extract_generic_go now doc (selector :: rest) =
      if (surviving now doc selector).isEmpty then extract_generic_go now doc rest
      else surviving now doc selector := by
  rw [extract_generic_go, surviving]
  by_cases h : (doc selector).isEmpty
  · rw [List.isEmpty_iff] at h
    simp [h]
  · simp only [h, if_false, Bool.false_eq_true, ite_false]

lemma extract_generic_go_eq_find (now : Int) (doc : String → List String) :
    ∀ sels : List String,
      extract_generic_go now doc sels =
        match sels.find? (fun sel => !(surviving now doc sel).isEmpty) with
        | some sel => surviving now doc sel
        | none => [] := by
  intro sels
  induction sels with
  | nil => rw [extract_generic_go]; rfl
  | cons sel rest ih =>
      rw [extract_generic_go_cons]
      by_cases h : (surviving now doc sel).isEmpty
      · rw [if_pos h, ih, List.find?_cons_of_neg]
        simp [h]
      · rw [if_neg h, List.find?_cons_of_pos]
        simp [h]

lemma surviving_source {now : Int} {doc : String → List String}
    {selector : String} {r : GenericRecord} (h : r ∈ surviving now doc selector) :
    r.source = selector := by
  rw [surviving] at h
  rcases List.mem_filterMap.mp h with ⟨p, _, hif⟩
  by_cases hl : p.2.length > 10
  · rw [if_pos hl] at hif
    cases hif
    rfl
  · rw [if_neg hl] at hif
    cases hif

lemma surviving_text_le {now : Int} {doc : String → List String}
    {selector : String} {r : GenericRecord} (h : r ∈ surviving now doc selector) :
    r.text.length ≤ 503 := by
  rw [surviving] at h
  rcases List.mem_filterMap.mp h with ⟨p, _, hif⟩
  by_cases hl : p.2.length > 10
  · rw [if_pos hl] at hif
    cases hif
    by_cases h5 : p.2.length > 500
    · simp only [h5, if_true, ite_true]
      rw [String.length_append]
      have hps : (pySlice p.2 500).length = min 500 p.2.length := by
        rw [pySlice]
        show (p.2.data.take 500).length = _
        rw [List.length_take]
        rfl
      have : ("..." : String).length = 3 := rfl
      omega
    · simp only [h5, if_false, Bool.false_eq_true, ite_false]
      omega
  · rw [if_neg hl] at hif
    cases hif

/-- Every record the generic extractor returns belongs to the surviving tier
of some selector of the fixed list. -/
lemma mem_extract_generic {now : Int} {doc : String → List String}
    {r : GenericRecord} (h : r ∈ extract_generic_comments now doc) :
    ∃ selector, comment_selectors.find?
        (fun sel => !(surviving now doc sel).isEmpty) = some selector ∧
      r ∈ surviving now doc selector := by
  rw [extract_generic_comments, extract_generic_go_eq_find] at h
  rcases e : comment_selectors.find? (fun sel => !(surviving now doc sel).isEmpty) with
    _ | sel
  · rw [e] at h
    cases h
  · rw [e] at h
    exact ⟨sel, rfl, h⟩

/-- Forget the clock field of a generic record. -/
def stripClock (r : GenericRecord) : GenericRecord := { r with created_utc := 0 }

lemma surviving_stripClock (now1 now2 : Int) (doc : String → List String)
    (selector : String) :
    (surviving now1 doc selector).map stripClock =
      (surviving now2 doc selector).map stripClock := by
  rw [surviving, surviving, List.map_filterMap, List.map_filterMap]
  congr 1
  funext p
  by_cases hl : p.2.length > 10 <;> simp [hl, stripClock]

lemma surviving_isEmpty_eq (now1 now2 : Int) (doc : String → List String)
    (selector : String) :
    (surviving now1 doc selector).isEmpty = (surviving now2 doc selector).isEmpty := by
  have h := surviving_stripClock now1 now2 doc selector
  rcases e1 : surviving now1 doc selector with _ | ⟨x, xs⟩ <;>
    rcases e2 : surviving now2 doc selector with _ | ⟨y, ys⟩ <;>
      rw [e1, e2] at h <;> simp_all

lemma extract_generic_go_stripClock (now1 now2 : Int) (doc : String → List String) :
    ∀ sels : List String,
      (extract_generic_go now1 doc sels).map stripClock =
        (extract_generic_go now2 doc sels).map stripClock := by
  intro sels
  induction sels with
  | nil => rw [extract_generic_go, extract_generic_go]
  | cons sel rest ih =>
      rw [extract_generic_go_cons, extract_generic_go_cons]
      rw [surviving_isEmpty_eq now1 now2 doc sel]
      by_cases h : (surviving now2 doc sel).isEmpty
      · rw [if_pos h, if_pos h]
        exact ih
      · rw [if_neg h, if_neg h]
        exact surviving_stripClock now1 now2 doc sel

/-! ### Concrete fixtures used by witnesses and counterexamples. -/

/-- A two-tree forest: a comment with one reply, followed by a "more" stub. -/
def wForest : List RNode :=
  [RNode.t1 "alice" "hi" 5 0 "c1" (some "/r/x/c1")
     [RNode.t1 "bob" "yo" 1 3 "c2" none []],
   RNode.more]

/-- A 600-character comment body. -/
def longBody : String := String.mk (List.replicate 600 'a')

/-- Payload whose only comment has a 600-character body and no other field. -/
def wLongPayload : Json :=
  Json.arr [Json.null, Json.obj [("data", Json.obj [("children", Json.arr
    [Json.obj [("kind", Json.str "t1"),
      ("data", Json.obj [("body", Json.str longBody)])]])])]]

/-- Payload whose only comment carries no permalink field. -/
def wNoPermalink : Json :=
  Json.arr [Json.null, Json.obj [("data", Json.obj [("children", Json.arr
    [Json.obj [("kind", Json.str "t1"),
      ("data", Json.obj [("author", Json.str "alice")])]])])]]

/-- A well-formed comment child carrying only an author. -/
def wGoodJson : Json :=
  Json.obj [("kind", Json.str "t1"), ("data", Json.obj [("author", Json.str "alice")])]

/-- A malformed child with no `kind` key: subscripting it raises KeyError. -/
def wBadJson : Json := Json.obj [("data", Json.obj [])]

/-- A non-`t1` node whose data smuggles a nested `t1` inside a replies-shaped
structure; the code must neither emit nor enter it. -/
def wMoreWithChild : Json :=
  Json.obj [("kind", Json.str "more"),
    ("data", Json.obj [("replies", Json.obj [("data", Json.obj [("children",
      Json.arr [Json.obj [("kind", Json.str "t1"),
        ("data", Json.obj [("body", Json.str "hidden")])]])])])])]

/-- A document with a single `.comment` element of 29 characters. -/
def wDoc : String → List String :=
  fun s => if s == ".comment" then ["a comment that is long enough"] else []

/-- The record the generic extractor emits for `wDoc`. -/
def wGeneric : GenericRecord :=
  { author := "Unknown", text := "a comment that is long enough", score := none,
    created_utc := 0, depth := 0, id := "generic_0", source := ".comment" }

/-- Text length of a record whose body is a string. -/
def textLength (r : CommentRecord) : Nat :=
  match r.text with
  | Json.str s => s.length
  | _ => 0

/-! ### Claim theorems. -/

/-- C1: for every valid two-element Reddit payload, the number of records
returned by `extract_reddit_comments` equals the number of `kind == "t1"`
nodes reachable by depth-first traversal from the comment listing, with
"more"-kind stubs skipped silently and never emitted as records. -/
theorem reddit_record_count (fuel : Nat) (post : Json) (ns : List RNode)
    (h : forestHeight ns ≤ fuel) :
    (extract_reddit_comments fuel (encodePayload post ns)).length = countForest ns := by
  rw [extract_encode fuel post ns h, flattenForest_length]

theorem reddit_record_count_witness :
    (extract_reddit_comments 2 (encodePayload Json.null wForest)).length = 2 :=
  (reddit_record_count 2 Json.null wForest
    (by simp [wForest, forestHeight, nodeHeight])).trans
    (by simp [wForest, countForest, countNode])

/-- C6: the sequence returned by `extract_reddit_comments` is the pre-order
flattening of the comment forest: each comment is immediately followed by the
records of its own replies depth-first, replies in source order. -/
theorem reddit_preorder (fuel : Nat) (post : Json) (ns : List RNode)
    (h : forestHeight ns ≤ fuel) :
    extract_reddit_comments fuel (encodePayload post ns) = flattenForest ns 0 :=
  extract_encode fuel post ns h

theorem reddit_preorder_witness :
    extract_reddit_comments 2 (encodePayload Json.null wForest) =
      [mkRecord "alice" "hi" 5 0 "c1" (some "/r/x/c1") 0,
       mkRecord "bob" "yo" 1 3 "c2" none 1] :=
  (reddit_preorder 2 Json.null wForest
    (by simp [wForest, forestHeight, nodeHeight])).trans
    (by simp [wForest, flattenForest, flattenNode])

/-- C5: a record is emitted exactly for the `t1` nodes of the payload, and
its `depth` equals the number of ancestor comment nodes above that node
(`OccursAt` counts 0 at top level and one more per reply step). -/
theorem reddit_depth_ancestors (fuel : Nat) (post : Json) (ns : List RNode)
    (r : CommentRecord) (h : forestHeight ns ≤ fuel) :
    r ∈ extract_reddit_comments fuel (encodePayload post ns) ↔
      ∃ a b s c i pl rs k, OccursAt (RNode.t1 a b s c i pl rs) k ns ∧
        r = mkRecord a b s c i pl k := by
  rw [extract_encode fuel post ns h]
  constructor
  · intro hr
    obtain ⟨a, b, s, c, i, pl, rs, k, hocc, hrec⟩ :=
      mem_flattenForest (forestHeight ns) ns le_rfl 0 r hr
    exact ⟨a, b, s, c, i, pl, rs, k, hocc, by rwa [Nat.zero_add] at hrec⟩
  · rintro ⟨a, b, s, c, i, pl, rs, k, hocc, rfl⟩
    have hm := mkRecord_mem_flattenForest hocc 0
    rwa [Nat.zero_add] at hm

theorem reddit_depth_ancestors_witness :
    mkRecord "bob" "yo" 1 3 "c2" none 1 ∈
      extract_reddit_comments 2 (encodePayload Json.null wForest) :=
  (reddit_depth_ancestors 2 Json.null wForest _
    (by simp [wForest, forestHeight, nodeHeight])).mpr
    ⟨"bob", "yo", 1, 3, "c2", none, [], 1,
      OccursAt.reply (OccursAt.top (List.mem_cons_self _ _)) (List.mem_cons_self _ _),
      rfl⟩

/-- C10: a node whose `kind` is not `"t1"` is neither emitted nor traversed:
`parse_comment` returns the empty contribution for it, whatever its nested
replies contain. -/
theorem non_t1_not_traversed (fuel : Nat) (obj : Json) (d : Nat) (k : Json)
    (hk : pySubscript obj "kind" = Except.ok k) (hne : pyEqStr k "t1" = false) :
    parse_comment (fuel + 1) obj d = Except.ok [] := by
  rw [parse_comment]
  simp [hk, hne]

theorem non_t1_not_traversed_witness :
    parse_comment 1 wMoreWithChild 0 = Except.ok [] :=
  non_t1_not_traversed 0 wMoreWithChild 0 (Json.str "more") rfl rfl

/-- C7: failures inside `extract_reddit_comments` are converted to an empty
result: a non-sequence payload and the empty sequence `[]` both yield `[]`
with no fault, and whenever the walk raises (`redditParse` errors) the
operation still returns `[]` instead of propagating. -/
theorem reddit_errors_swallowed (fuel : Nat) (data : Json) :
    ((∀ xs, data ≠ Json.arr xs) → extract_reddit_comments fuel data = []) ∧
    extract_reddit_comments fuel (Json.arr []) = [] ∧
    (∀ e, redditParse fuel data = Except.error e →
      extract_reddit_comments fuel data = []) := by
  refine ⟨?_, rfl, ?_⟩
  · intro h
    cases data with
    | arr xs => exact absurd rfl (h xs)
    | null => rfl
    | bool b => rfl
    | num n => rfl
    | str s => rfl
    | obj fs => rfl
  · intro e he
    rw [extract_reddit_comments, he]

theorem reddit_errors_swallowed_witness :
    extract_reddit_comments 1 (Json.num 5) = [] ∧
    extract_reddit_comments 1 (Json.arr []) = [] ∧
    extract_reddit_comments 1 (Json.arr [Json.null, Json.obj [("data",
      Json.obj [("children", Json.arr [wBadJson])])]]) = [] :=
  ⟨(reddit_errors_swallowed 1 (Json.num 5)).1 (fun _xs hx => Json.noConfusion hx),
   (reddit_errors_swallowed 1 (Json.arr [])).2.1,
   (reddit_errors_swallowed 1 (Json.arr [Json.null, Json.obj [("data",
      Json.obj [("children", Json.arr [wBadJson])])]])).2.2 "KeyError: kind" rfl⟩

/-- C9: extraction is all-or-nothing: the result is either empty or the
complete record list of a walk that raised nothing; in particular, when one
top-level child parses to a (possibly non-empty) record list and a later
sibling raises, every record already built is discarded and the result is
empty. -/
theorem reddit_all_or_nothing :
    (∀ fuel data, extract_reddit_comments fuel data = [] ∨
      redditParse fuel data = Except.ok (extract_reddit_comments fuel data)) ∧
    (∀ (fuel : Nat) (post good bad : Json) (l : List CommentRecord) (e : String),
      parse_comment fuel good 0 = Except.ok l →
      parse_comment fuel bad 0 = Except.error e →
      extract_reddit_comments fuel (Json.arr [post,
        Json.obj [("data", Json.obj [("children", Json.arr [good, bad])])]]) = []) := by
  constructor
  · intro fuel data
    cases e : redditParse fuel data with
    | ok l =>
        right
        rw [extract_reddit_comments, e]
    | error err =>
        left
        rw [extract_reddit_comments, e]
  · intro fuel post good bad l e hg hb
    have hloop : ∀ acc : List (List CommentRecord),
        List.mapM.loop (fun comment => parse_comment fuel comment 0) [good, bad] acc =
          Except.error e := by
      intro acc
      simp [List.mapM.loop, hg, hb]
    rw [extract_reddit_comments, redditParse]
    simp [pySubscript, lookupField, pyIter, List.mapM, hloop]

theorem reddit_all_or_nothing_witness :
    parse_comment 1 wGoodJson 0 =
      Except.ok [⟨Json.str "alice", Json.str "[deleted]", Json.num 0, 0, 0,
        Json.str "", "https://reddit.com"⟩] ∧
    parse_comment 1 wBadJson 0 = Except.error "KeyError: kind" ∧
    extract_reddit_comments 1 (Json.arr [Json.null, Json.obj [("data",
      Json.obj [("children", Json.arr [wGoodJson, wBadJson])])]]) = [] :=
  ⟨rfl, rfl,
   reddit_all_or_nothing.2 1 Json.null wGoodJson wBadJson
     [⟨Json.str "alice", Json.str "[deleted]", Json.num 0, 0, 0,
        Json.str "", "https://reddit.com"⟩] "KeyError: kind" rfl rfl⟩

set_option maxRecDepth 4000 in
/-- C2 counterexample: the Reddit extractor does not truncate at all; a
600-character body is stored verbatim, so the emitted text has length 600,
above the claimed cap of 503. -/
theorem reddit_no_truncation_counterexample :
    (extract_reddit_comments 1 wLongPayload).map textLength = [600] ∧
      ¬ (600 ≤ 500 + 3) := by
  constructor
  · rfl
  · decide

/-- C2 amended: the 500-plus-ellipsis cap holds for every record of
`extract_generic_comments`, but `extract_reddit_comments` copies the body
verbatim into `text` with no truncation. -/
theorem truncation_amended :
    (∀ (now : Int) (doc : String → List String) (r : GenericRecord),
      r ∈ extract_generic_comments now doc → r.text.length ≤ 503) ∧
    (∀ (fuel : Nat) (a b : String) (s c : Int) (i : String) (pl : Option String)
      (rs : List RNode) (d : Nat),
      nodeHeight (RNode.t1 a b s c i pl rs) ≤ fuel →
      ∃ rest, parse_comment fuel (encodeNode (RNode.t1 a b s c i pl rs)) d =
          Except.ok (mkRecord a b s c i pl d :: rest) ∧
        (mkRecord a b s c i pl d).text = Json.str b) := by
  constructor
  · intro now doc r h
    obtain ⟨sel, _, hmem⟩ := mem_extract_generic h
    exact surviving_text_le hmem
  · intro fuel a b s c i pl rs d h
    refine ⟨flattenForest rs (d + 1), ?_, rfl⟩
    rw [parse_comment_encode fuel (RNode.t1 a b s c i pl rs) d h, flattenNode]

theorem truncation_amended_witness :
    wGeneric.text.length ≤ 503 ∧
    (∃ rest, parse_comment 1 (encodeNode (RNode.t1 "a" longBody 0 0 "x" none [])) 0 =
        Except.ok (mkRecord "a" longBody 0 0 "x" none 0 :: rest) ∧
      (mkRecord "a" longBody 0 0 "x" none 0).text = Json.str longBody) :=
  ⟨truncation_amended.1 0 wDoc wGeneric (by decide),
   truncation_amended.2 1 "a" longBody 0 0 "x" none [] 0
     (by simp [nodeHeight, forestHeight])⟩

/-- C3 counterexample: re-running the generic extractor on the unchanged
document at a later clock instant gives a different record sequence, because
`created_utc` stores `datetime.now()`. -/
theorem rerun_not_identical_counterexample :
    extract_generic_comments 0 wDoc ≠ extract_generic_comments 1 wDoc := by
  decide

/-- C3 amended: Reddit extraction is a pure function of the payload, and two
runs of the generic extractor on an unchanged document agree on every record,
in order, once the clock-valued `created_utc` field is disregarded; they are
byte-identical only when the wall clock reads the same instant. -/
theorem rerun_amended (now1 now2 : Int) (doc : String → List String) :
    (extract_generic_comments now1 doc).map stripClock =
      (extract_generic_comments now2 doc).map stripClock :=
  extract_generic_go_stripClock now1 now2 doc comment_selectors

/-- C4 counterexample: when the node carries no permalink field the emitted
record's permalink is the bare base URL `"https://reddit.com"`, not the empty
string. -/
theorem permalink_counterexample :
    (extract_reddit_comments 1 wNoPermalink).map (fun r => r.permalink) =
      ["https://reddit.com"] ∧ "https://reddit.com" ≠ "" := by
  constructor
  · rfl
  · decide

/-- C4 amended: every emitted Reddit record's permalink is the node's
relative permalink prefixed with the platform base URL; when the node has no
permalink field the record's permalink is exactly the bare base URL
`"https://reddit.com"` (the prefix applied to the empty default), never the
empty string. -/
theorem permalink_amended (fuel : Nat) (post : Json) (ns : List RNode)
    (r : CommentRecord) (h : forestHeight ns ≤ fuel)
    (hr : r ∈ extract_reddit_comments fuel (encodePayload post ns)) :
    ∃ a b s c i pl rs k, OccursAt (RNode.t1 a b s c i pl rs) k ns ∧
      r.permalink = "https://reddit.com" ++ pl.getD "" ∧
      (pl = none → r.permalink = "https://reddit.com") := by
  rw [extract_encode fuel post ns h] at hr
  obtain ⟨a, b, s, c, i, pl, rs, k, hocc, hrec⟩ :=
    mem_flattenForest (forestHeight ns) ns le_rfl 0 r hr
  refine ⟨a, b, s, c, i, pl, rs, k, hocc, ?_, ?_⟩
  · rw [hrec]
    rfl
  · rintro rfl
    rw [hrec]
    rfl

theorem permalink_amended_witness :
    ∃ a b s c i pl rs k, OccursAt (RNode.t1 a b s c i pl rs) k wForest ∧
      (mkRecord "bob" "yo" 1 3 "c2" none 1).permalink =
        "https://reddit.com" ++ pl.getD "" ∧
      (pl = none →
        (mkRecord "bob" "yo" 1 3 "c2" none 1).permalink = "https://reddit.com") :=
  permalink_amended 2 Json.null wForest (mkRecord "bob" "yo" 1 3 "c2" none 1)
    (by simp [wForest, forestHeight, nodeHeight])
    (by
      rw [extract_encode 2 Json.null wForest (by simp [wForest, forestHeight, nodeHeight])]
      simp [wForest, flattenForest, flattenNode])

/-- C8: the generic extractor returns the surviving records (text longer than
10 characters, at most 50 elements per selector) of the first selector in the
fixed list that yields at least one survivor, and every emitted record
carries that single winning selector in its `source` field. -/
theorem generic_first_match (now : Int) (doc : String → List String) :
    extract_generic_comments now doc =
      (match comment_selectors.find? (fun sel => !(surviving now doc sel).isEmpty) with
       | some sel => surviving now doc sel
       | none => []) ∧
    ∀ r ∈ extract_generic_comments now doc,
      comment_selectors.find? (fun sel => !(surviving now doc sel).isEmpty) =
        some r.source := by
  constructor
  · exact extract_generic_go_eq_find now doc comment_selectors
  · intro r hr
    obtain ⟨sel, hfind, hmem⟩ := mem_extract_generic hr
    rw [hfind, surviving_source hmem]

theorem generic_first_match_witness :
    comment_selectors.find? (fun sel => !(surviving 0 wDoc sel).isEmpty) =
      some wGeneric.source :=
  (generic_first_match 0 wDoc).2 wGeneric (by decide)

end CommentExtractor
